import Mathlib

set_option linter.unusedVariables false

/-!
Verification of the Formula Integrity & Addressing Subsystem of the
excel-agent-tool repository (src/core/excel_agent_core.py), as a shallow
embedding in Lean 4.  Python strings are modelled as `String`/`List Char`
(ASCII fragment of Python's text semantics), fallible functions return
`Except`, and the workbook abstraction consumed from openpyxl is modelled
as explicit lists of sheets, rows and cells.
-/

deriving instance DecidableEq for Except

namespace ExcelAgent

/-! ### Python character/string primitives (ASCII fragment) -/

/-- The single-quote character, written via its code point. -/
def quoteC : Char := Char.ofNat 39

/-- Python `str.upper` on one character (ASCII fragment). -/
def pyUpperChar (c : Char) : Char :=
  if 'a' ≤ c ∧ c ≤ 'z' then Char.ofNat (c.toNat - 32) else c

/-- Python `str.upper` (ASCII fragment), on the character list of a string. -/
def pyUpper (l : List Char) : List Char := l.map pyUpperChar

/-- Regex class `[A-Z]`. -/
def isUpperAlpha (c : Char) : Bool := decide ('A' ≤ c ∧ c ≤ 'Z')

/-- Regex class `\d` (ASCII fragment). -/
def isDigitChar (c : Char) : Bool := decide ('0' ≤ c ∧ c ≤ '9')

/-- Python `sub in s` substring test, on character lists. -/
def strContains (hay pat : List Char) : Bool :=
  match hay with
  | [] => pat.isEmpty
  | _ :: t => pat.isPrefixOf hay || strContains t pat

/-! ### Address model (src/core/excel_agent_core.py lines 199-252) -/

def EXCEL_MAX_ROWS : Nat := 1048576
def EXCEL_MAX_COLS : Nat := 16384

/-- Whether a character list is literally 1-3 uppercase letters followed by
1-7 digits: since the two classes are disjoint, this holds exactly when
the maximal leading run of uppercase letters has length 1..3 and the
remainder is 1..7 digits. -/
def matchesCellPattern (l : List Char) : Bool :=
  decide (1 ≤ (l.takeWhile isUpperAlpha).length ∧
          (l.takeWhile isUpperAlpha).length ≤ 3 ∧
          1 ≤ (l.dropWhile isUpperAlpha).length ∧
          (l.dropWhile isUpperAlpha).length ≤ 7) &&
    (l.dropWhile isUpperAlpha).all isDigitChar

/-- Python's `$` in `re.match` also matches just before one newline at the
very end of the string, so the regexes of lines 203 and 234 ignore at most
one trailing newline; the matched groups exclude it. -/
def dropTrailingNewline (l : List Char) : List Char :=
  match l.reverse with
  | '\n' :: t => t.reverse
  | _ => l

/-- `is_valid_cell_reference` (line 199): non-empty and the uppercased text
matches `^[A-Z]{1,3}\d{1,7}$` under Python `$` semantics (at most one
trailing newline is tolerated). -/
def is_valid_cell_reference (s : String) : Bool :=
  !s.toList.isEmpty && matchesCellPattern (dropTrailingNewline (pyUpper s.toList))

/-- Value of one column letter, `A` = 1 .. `Z` = 26. -/
def letterVal (c : Char) : Nat := c.toNat - 64

/-- Modelled from the spec: openpyxl's `column_index_from_string`, the
base-26 no-zero-digit column decoding (A=1 … Z=26, AA=27 …) stated in
§4.1 of the spec. -/
def column_index_from_string (l : List Char) : Nat :=
  l.foldl (fun a c => a * 26 + letterVal c) 0

/-- Python `int` on a run of ASCII digits. -/
def natOfDigits (l : List Char) : Nat :=
  l.foldl (fun a c => a * 10 + (c.toNat - 48)) 0

/-- The letter group captured by `^([A-Z]+)(\d+)$` on the uppercased text
(the group never includes the newline `$` may precede). -/
def lettersOf (s : String) : List Char :=
  (dropTrailingNewline (pyUpper s.toList)).takeWhile isUpperAlpha

/-- The digit group captured by `^([A-Z]+)(\d+)$` on the uppercased text
(the group never includes the newline `$` may precede). -/
def digitsOf (s : String) : List Char :=
  (dropTrailingNewline (pyUpper s.toList)).dropWhile isUpperAlpha

/-- `get_cell_coordinates` (lines 229-245): validate the reference, split the
uppercased text into letters and digits, decode both, and bounds-check
against the grid limits.  Failure raises `InvalidCellReferenceError`,
modelled as `Except.error`. -/
def get_cell_coordinates (s : String) : Except String (Nat × Nat) :=
  if is_valid_cell_reference s then
    let row := natOfDigits (digitsOf s)
    let col := column_index_from_string (lettersOf s)
    if row > EXCEL_MAX_ROWS ∨ col > EXCEL_MAX_COLS then
      Except.error ("Reference out of bounds: " ++ s)
    else
      Except.ok (row, col)
  else
    Except.error ("Invalid cell reference: " ++ s)

/-- Modelled from the spec: the digit list (most significant first, digits
1..26) of the base-26 no-zero-digit numeral of `n`, underlying openpyxl's
`get_column_letter`. -/
def colDigits (n : Nat) : List Nat :=
  if h : n = 0 then [] else colDigits ((n - 1) / 26) ++ [(n - 1) % 26 + 1]
termination_by n
decreasing_by
  exact Nat.lt_of_le_of_lt (Nat.div_le_self _ _)
    (Nat.sub_lt (Nat.pos_of_ne_zero h) (by decide))

/-- The column letter for one base-26 digit 1..26. -/
def digitChar26 : Nat → Char
  | 1 => 'A' | 2 => 'B' | 3 => 'C' | 4 => 'D' | 5 => 'E' | 6 => 'F'
  | 7 => 'G' | 8 => 'H' | 9 => 'I' | 10 => 'J' | 11 => 'K' | 12 => 'L'
  | 13 => 'M' | 14 => 'N' | 15 => 'O' | 16 => 'P' | 17 => 'Q' | 18 => 'R'
  | 19 => 'S' | 20 => 'T' | 21 => 'U' | 22 => 'V' | 23 => 'W' | 24 => 'X'
  | 25 => 'Y' | 26 => 'Z' | _ => '?'

/-- Modelled from the spec: openpyxl's `get_column_letter` encoding, the
inverse of `column_index_from_string`. -/
def colChars (n : Nat) : List Char := (colDigits n).map digitChar26

/-- `get_column_letter` (lines 248-252): range-check 1..16384 then delegate
to the openpyxl encoder.  The out-of-range failure raises `ValueError`,
modelled as `Except.error`. -/
def get_column_letter (n : Nat) : Except String String :=
  if 1 ≤ n ∧ n ≤ EXCEL_MAX_COLS then
    Except.ok (String.mk (colChars n))
  else
    Except.error ("Column number out of range (1-16384)")

/-! ### Sheet-name validation (lines 267-287) -/

/-- The characters Excel forbids in sheet names, in the order the source
lists them. -/
def invalidSheetChars : List Char := [':', '\\', '/', '?', '*', '[', ']']

/-- Python `name.replace(old, new)` for single characters. -/
def pyReplaceChar (old new : Char) (l : List Char) : List Char :=
  l.map (fun c => if c = old then new else c)

/-- `is_valid_sheet_name` (lines 267-272): non-empty, at most 31 characters,
and no forbidden character. -/
def is_valid_sheet_name (s : String) : Bool :=
  !(s.toList.isEmpty) && decide (s.toList.length ≤ 31) &&
    invalidSheetChars.all (fun c => !(decide (c ∈ s.toList)))

/-- `sanitize_sheet_name` (lines 275-287): default for the empty name,
replace each forbidden character with an underscore, truncate to 31
characters, and default again if the result is empty. -/
def sanitize_sheet_name (s : String) : String :=
  if s.toList.isEmpty then "Sheet1"
  else
    let replaced := invalidSheetChars.foldl
      (fun acc c => pyReplaceChar c '_' acc) s.toList
    let truncated := replaced.take 31
    if truncated.isEmpty then "Sheet1" else String.mk truncated

/-! ### Formula sanitizer (lines 294-329) -/

/-- Regex class `\s` (ASCII fragment). -/
def isSpaceChar (c : Char) : Bool :=
  c = ' ' || c = '\t' || c = '\n' || c = '\r' || c = '\x0b' || c = '\x0c'

/-- Lowercase ASCII letter. -/
def isLowerAlpha (c : Char) : Bool := decide ('a' ≤ c ∧ c ≤ 'z')

/-- Regex class `\w` (ASCII fragment). -/
def isWordChar (c : Char) : Bool :=
  isUpperAlpha c || isLowerAlpha c || isDigitChar c || c = '_'

/-- Regex class `[\w\s]` (ASCII fragment). -/
def isWordSpace (c : Char) : Bool := isWordChar c || isSpaceChar c

/-- Case-insensitive literal match of `pat` at the head of `l`; on success
returns the rest of `l`. -/
def caselessMatch : List Char → List Char → Option (List Char)
  | [], l => some l
  | _ :: _, [] => none
  | p :: ps, c :: cs =>
    if pyUpperChar c = pyUpperChar p then caselessMatch ps cs else none

/-- `re.search`: does `p` hold at some position of `l`? -/
def searchB (p : List Char → Bool) (l : List Char) : Bool := l.tails.any p

/-- Match of `NAME\s*\(` (case-insensitive) at the head of `l`. -/
def matchFuncCallAt (name : List Char) (l : List Char) : Bool :=
  match caselessMatch name l with
  | some rest =>
    match rest.dropWhile isSpaceChar with
    | '(' :: _ => true
    | _ => false
  | none => false

/-- Match of `\[[\w\s]+\.xl` (case-insensitive) at the head of `l`. -/
def extRefAt : List Char → Bool
  | '[' :: rest =>
    !(rest.takeWhile isWordSpace).isEmpty &&
      (match rest.dropWhile isWordSpace with
       | '.' :: c1 :: c2 :: _ => decide (pyUpperChar c1 = 'X' ∧ pyUpperChar c2 = 'L')
       | _ => false)
  | _ => false

/-- Match of `INDIRECT\s*\(.*HYPERLINK` (case-insensitive, `.` not matching
newline) at the head of `l`. -/
def indirectHyperAt (l : List Char) : Bool :=
  match caselessMatch "INDIRECT".toList l with
  | some rest =>
    match rest.dropWhile isSpaceChar with
    | '(' :: rest2 =>
      searchB (fun t => (caselessMatch "HYPERLINK".toList t).isSome)
        (rest2.takeWhile (fun c => c ≠ '\n'))
    | _ => false
  | none => false

/-- The `dangerous_patterns` table of `sanitize_formula`, scanned in source
order; each hit contributes its warning. -/
def dangerousWarnings (l : List Char) : List String :=
  (if searchB (matchFuncCallAt "WEBSERVICE".toList) l then
    ["WEBSERVICE function (network access)"] else []) ++
  (if searchB (matchFuncCallAt "HYPERLINK".toList) l then
    ["HYPERLINK function (potential phishing)"] else []) ++
  (if searchB (matchFuncCallAt "CALL".toList) l then
    ["CALL function (external DLL execution)"] else []) ++
  (if searchB extRefAt l then
    ["External workbook reference"] else []) ++
  (if searchB indirectHyperAt l then
    ["INDIRECT+HYPERLINK combination (security risk)"] else [])

/-- Python `formula.startswith('=')`. -/
def pyStartsWithEq (s : String) : Bool :=
  match s.toList with
  | c :: _ => c = '='
  | [] => false

def countChar (c : Char) (l : List Char) : Nat := l.countP (fun d => d = c)

def MAX_FORMULA_LENGTH : Nat := 8000
def MAX_FORMULA_NESTING : Nat := 64

/-- `sanitize_formula` (lines 294-329): prepend `=` if absent, scan the
dangerous-pattern table, then the length and paren-imbalance checks.  The
text is returned unchanged apart from the `=` normalization; threats only
produce warnings.  The `allow_external` flag is accepted and unused, as in
the source. -/
def sanitize_formula (formula : String) (allow_external : Bool) :
    String × List String :=
  let f := if pyStartsWithEq formula then formula else "=" ++ formula
  let l := f.toList
  let w1 := dangerousWarnings l
  let w2 := if l.length > MAX_FORMULA_LENGTH then
      ["Formula exceeds recommended length (" ++ toString l.length ++ " chars)"]
    else []
  let nesting : Int := (countChar '(' l : Int) - (countChar ')' l : Int)
  let w3 := if nesting.natAbs > MAX_FORMULA_NESTING then
      ["Formula nesting depth suspicious (" ++ toString nesting ++ ")"]
    else []
  (f, w1 ++ w2 ++ w3)

/-! ### Reference validator (lines 332-346) -/

/-- Scanner for `re.findall` of the quoted-name-then-bang pattern.  The
second argument is `none` outside a candidate match and `some body` after
an opening quote, accumulating the quote-free body.  A closing quote
followed by `!` with a non-empty body is a match (consuming the `!`); a
closing quote anywhere else restarts a candidate at that quote, which is
exactly where the regex engine's next match attempt can first succeed. -/
def findQuotedAux : List Char → Option (List Char) → List (List Char)
  | [], _ => []
  | c :: rest, none =>
    if c = quoteC then findQuotedAux rest (some []) else findQuotedAux rest none
  | [_], some _ => []
  | c :: d :: rest, some body =>
    if c = quoteC then
      if d = '!' ∧ ¬ body.isEmpty then body :: findQuotedAux rest none
      else findQuotedAux (d :: rest) (some [])
    else findQuotedAux (d :: rest) (some (body ++ [c]))

/-- `re.findall` for quoted sheet names immediately followed by `!`: every
non-overlapping occurrence of a quoted non-empty quote-free body followed
by `!`, in order. -/
def findQuoted (l : List Char) : List (List Char) := findQuotedAux l none

/-- Scanner for `re.findall(r"([A-Za-z0-9_]+)!", ...)`.  The second argument
accumulates the current identifier run (left of the scan point). -/
def findBareAux : List Char → List Char → List (List Char)
  | [], _ => []
  | c :: rest, run =>
    if isWordChar c then findBareAux rest (run ++ [c])
    else if c = '!' ∧ ¬ run.isEmpty then run :: findBareAux rest []
    else findBareAux rest []

/-- `re.findall(r"([A-Za-z0-9_]+)!", ...)`: every maximal identifier run
immediately followed by `!`, in order. -/
def findBare (l : List Char) : List (List Char) := findBareAux l []

/-- Worker for `dedupFirst`, carrying the names already kept. -/
def dedupFirstAux : List String → List String → List String
  | [], _ => []
  | x :: xs, seen =>
    if x ∈ seen then dedupFirstAux xs seen
    else x :: dedupFirstAux xs (seen ++ [x])

/-- `list(set(...))`, modelled as first-occurrence deduplication. -/
def dedupFirst (l : List String) : List String := dedupFirstAux l []

/-- The deduplicated sheet names extracted from a formula: quoted names
followed by `!`, then bare identifier tokens followed by `!`. -/
def extractSheetRefs (f : String) : List String :=
  dedupFirst ((findQuoted f.toList).map String.mk ++ (findBare f.toList).map String.mk)

/-- The error message naming a missing sheet. -/
def refErrMsg (name : String) : String :=
  "Referenced sheet " ++ quoteC.toString ++ name ++ quoteC.toString ++
    " does not exist"

/-- The fail-fast loop over extracted names. -/
def checkRefs : List String → List String → Bool × Option String
  | [], _ => (true, none)
  | r :: rs, known =>
    if r ∈ known then checkRefs rs known else (false, some (refErrMsg r))

/-- `validate_formula_references` (lines 332-346): reject the empty formula,
extract and deduplicate sheet references, and fail fast on the first one
absent from `existing_sheets`. -/
def validate_formula_references (formula : String) (existing_sheets : List String) :
    Bool × Option String :=
  if formula.toList.isEmpty then (false, some "Formula must be a non-empty string")
  else checkRefs (extractSheetRefs formula) existing_sheets

/-! ### Workbook model

The openpyxl workbook consumed by the validation and repair engines,
modelled as the ordered list of sheets, each an ordered list of rows of
cells, exactly the order `wb.sheetnames` / `ws.iter_rows()` exposes. -/

/-- The fragment of Python cell values the engines inspect. -/
inductive PyVal where
  | none : PyVal
  | str : String → PyVal
  | int : Int → PyVal
deriving DecidableEq, Repr

structure Cell where
  coordinate : String
  data_type : String
  value : PyVal
deriving DecidableEq, Repr

structure Sheet where
  name : String
  rows : List (List Cell)
deriving DecidableEq, Repr

abbrev Workbook := List Sheet

/-- Python truthiness of a cell value. -/
def pyTruthy : PyVal → Bool
  | .none => false
  | .str s => !s.toList.isEmpty
  | .int n => decide (¬ n = 0)

/-- Python `str` of a cell value. -/
def pyStr : PyVal → String
  | .none => "None"
  | .str s => s
  | .int n => toString n

/-- `str(cell.value) if cell.value else ""` (line 506). -/
def cellValueStr (v : PyVal) : String := if pyTruthy v then pyStr v else ""

/-- The closed error-sentinel set (`FormulaErrors`, lines 103-111). -/
def ERROR_VALUES : List String :=
  ["#DIV/0!", "#REF!", "#VALUE!", "#NAME?", "#NULL!", "#NUM!", "#N/A"]

/-! ### Validation engine (lines 415-584) -/

/-- One `error_summary` bucket: occurrence count and location list. -/
structure ErrBucket where
  count : Nat
  locations : List String
deriving DecidableEq, Repr

/-- The `error_summary` dict: insertion-ordered association list. -/
abbrev Summ := List (String × ErrBucket)

/-- The dict update of lines 510-515: create the bucket on first sight (at
the end, Python dicts preserve insertion order), then increment the count
and append the location. -/
def addError : Summ → String → String → Summ
  | [], etype, loc => [(etype, ⟨1, [loc]⟩)]
  | (k, b) :: rest, etype, loc =>
    if k = etype then (k, ⟨b.count + 1, b.locations ++ [loc]⟩) :: rest
    else (k, b) :: addError rest etype loc

/-- The per-cell step of the scan loop (lines 502-515): a formula cell
bumps the formula counter, and its displayed value, when it is one of the
sentinels, is recorded with its `Sheet!Cell` location. -/
def scanCell (sheetName : String) (st : Nat × Summ) (c : Cell) : Nat × Summ :=
  if c.data_type = "f" then
    if cellValueStr c.value ∈ ERROR_VALUES then
      (st.1 + 1, addError st.2 (cellValueStr c.value) (sheetName ++ "!" ++ c.coordinate))
    else (st.1 + 1, st.2)
  else st

/-- The row loop of the scan, over `ws.iter_rows()`. -/
def scanRows (sheetName : String) (st : Nat × Summ) (rows : List (List Cell)) :
    Nat × Summ :=
  rows.foldl (fun st row => row.foldl (scanCell sheetName) st) st

/-- The sheet loop of the scan, over `wb.sheetnames`. -/
def scanWorkbook (wb : Workbook) : Nat × Summ :=
  wb.foldl (fun st sh => scanRows sh.name st sh.rows) (0, [])

/-- `error_summary` payload of a report: buckets on the normal paths, the
`{'error': {'message': ...}}` shape on the exception path (line 533). -/
inductive ErrorSummaryV where
  | buckets : Summ → ErrorSummaryV
  | failure : String → ErrorSummaryV
deriving DecidableEq, Repr

structure ValidationReport where
  status : String
  total_errors : Nat
  total_formulas : Nat
  error_summary : ErrorSummaryV
  validation_method : String
deriving DecidableEq, Repr

def sumCounts (s : Summ) : Nat := (s.map (fun kb => kb.2.count)).sum

/-- `validate_workbook_python` (lines 484-535).  The outcome of
`load_workbook` is passed explicitly: `Except.error` models an unreadable
or corrupt file, on which the function returns a status-`error` report
instead of raising. -/
def validate_workbook_python (loadResult : Except String Workbook) :
    ValidationReport :=
  match loadResult with
  | .error e => ⟨"error", 0, 0, .failure e, "python_fallback"⟩
  | .ok wb =>
    if (scanWorkbook wb).2.isEmpty then
      ⟨"success", 0, (scanWorkbook wb).1, .buckets [], "python_fallback"⟩
    else
      ⟨"errors_found", sumCounts (scanWorkbook wb).2, (scanWorkbook wb).1,
       .buckets (scanWorkbook wb).2, "python_fallback"⟩

/-- `validate_workbook` (lines 551-584): missing file raises, `auto`
resolves by LibreOffice availability, and both resolved methods delegate
to the pure-Python validator (the LibreOffice path falls back, line 580). -/
def validate_workbook (fileExists : Bool) (loadResult : Except String Workbook)
    (libreofficeAvailable : Bool) (method : String) :
    Except String ValidationReport :=
  if !fileExists then Except.error "FileNotFoundError: File not found"
  else
    let m := if method = "auto" then
        (if libreofficeAvailable then "libreoffice" else "python")
      else method
    if m = "libreoffice" then Except.ok (validate_workbook_python loadResult)
    else if m = "python" then Except.ok (validate_workbook_python loadResult)
    else Except.error "ValueError: Unknown validation method"

/-! ### Error repair (lines 591-657) -/

structure RepairDetail where
  attempted : Nat
  successful : Nat
  method : String
deriving DecidableEq, Repr

structure RepairResults where
  repairs_attempted : Nat
  repairs_successful : Nat
  backup_file : Option String
  details : List (String × RepairDetail)
  error : Option String
deriving DecidableEq, Repr

/-- The substring checked by `'IFERROR' not in formula.upper()` (line 635). -/
def IFERROR_PAT : List Char := ['I', 'F', 'E', 'R', 'R', 'O', 'R']

/-- Python `formula[1:]` after `startswith('=')` (lines 637-638). -/
def stripEqList : List Char → List Char
  | '=' :: t => t
  | l => l

/-- The rewrite `f'=IFERROR({formula}, 0)'` of line 639. -/
def wrapFormula (f : String) : String :=
  String.mk ("=IFERROR(".toList ++ stripEqList f.toList ++ ", 0)".toList)

/-- The per-cell body of the repair loop (lines 632-641): a formula-typed
cell holding a string not containing `IFERROR` (case-insensitive) is
wrapped and counted; every other cell is untouched. -/
def repairCell (c : Cell) : Cell × Nat :=
  match c.value with
  | .str f =>
    if decide (c.data_type = "f") && !(strContains (pyUpper f.toList) IFERROR_PAT) then
      ({ c with value := .str (wrapFormula f) }, 1)
    else (c, 0)
  | _ => (c, 0)

def repairCells : List Cell → List Cell × Nat
  | [] => ([], 0)
  | c :: cs =>
    let p := repairCell c
    let q := repairCells cs
    (p.1 :: q.1, p.2 + q.2)

def repairRows : List (List Cell) → List (List Cell) × Nat
  | [] => ([], 0)
  | r :: rs =>
    let p := repairCells r
    let q := repairRows rs
    (p.1 :: q.1, p.2 + q.2)

def repairSheets : List Sheet → List Sheet × Nat
  | [] => ([], 0)
  | sh :: ss =>
    let p := repairRows sh.rows
    let q := repairSheets ss
    ({ sh with rows := p.1 } :: q.1, p.2 + q.2)

/-- The in-memory part of `repair_errors` (lines 621-649): the `#DIV/0!`
pass runs when `error_types` is unspecified or mentions `#DIV/0!`, and
both counters advance together. -/
def repair_errors_core (wb : Workbook) (error_types : Option (List String)) :
    Workbook × RepairResults :=
  let runPass := match error_types with
    | Option.none => true
    | some ets => decide ("#DIV/0!" ∈ ets)
  if runPass then
    let p := repairSheets wb
    (p.1, { repairs_attempted := p.2, repairs_successful := p.2,
            backup_file := none,
            details := [("#DIV/0!", ⟨p.2, p.2, "IFERROR wrapper"⟩)],
            error := none })
  else
    (wb, { repairs_attempted := 0, repairs_successful := 0,
           backup_file := none, details := [], error := none })

/-- The backup path `f"{stem}_backup_{timestamp}{suffix}"` of line 608. -/
def mkBackupPath (stem timestamp suffix : String) : String :=
  stem ++ "_backup_" ++ timestamp ++ suffix

/-- `repair_errors` (lines 591-657).  `shutil.copy2` runs first when
`backup` is set and its failure (modelled by `backupOk = false`)
propagates before anything else happens; afterwards the load outcome is
consumed inside the `try`, a load failure being captured in the result
with the file unchanged (`none` in the second component), and a
successful load yielding the saved repaired workbook. -/
def repair_errors (loadResult : Except String Workbook)
    (error_types : Option (List String)) (backup backupOk : Bool)
    (backupPath : String) : Except String (RepairResults × Option Workbook) :=
  if backup && !backupOk then Except.error "shutil.copy2 failed"
  else
    let backup_file := if backup then some backupPath else Option.none
    match loadResult with
    | .error e =>
      Except.ok ({ repairs_attempted := 0, repairs_successful := 0,
                   backup_file := backup_file, details := [],
                   error := some e }, Option.none)
    | .ok wb =>
      let p := repair_errors_core wb error_types
      Except.ok ({ p.2 with backup_file := backup_file }, some p.1)

/-! ### Specification-side views of the scan and repair traversals -/

/-- All cells of a sheet paired with the sheet name, sheet order and
row-major order preserved. -/
def sheetCellsWithName (sh : Sheet) : List (String × Cell) :=
  sh.rows.flatten.map (fun c => (sh.name, c))

/-- All cells of the workbook in traversal order. -/
def wbCells (wb : Workbook) : List (String × Cell) :=
  (wb.map sheetCellsWithName).flatten

def isFormulaCell (c : Cell) : Bool := decide (c.data_type = "f")

def locOf (p : String × Cell) : String := p.1 ++ "!" ++ p.2.coordinate

/-- The (sentinel, location) event of one cell, when it is a formula cell
displaying a sentinel. -/
def evOf (p : String × Cell) : Option (String × String) :=
  if isFormulaCell p.2 && decide (cellValueStr p.2.value ∈ ERROR_VALUES) then
    some (cellValueStr p.2.value, locOf p)
  else Option.none

/-- The (sentinel, location) pairs of all matching formula cells, in
traversal order. -/
def matchEvents (wb : Workbook) : List (String × String) :=
  (wbCells wb).filterMap evOf

/-- The number of formula-bearing cells of the workbook. -/
def totalFormulasSpec (wb : Workbook) : Nat :=
  (wbCells wb).countP (fun p => isFormulaCell p.2)

/-- One summary-update step, taking a (sentinel, location) event. -/
def evStep (s : Summ) (e : String × String) : Summ := addError s e.1 e.2

/-- The (sentinel, location) events a run of cells of one sheet produces,
in order. -/
def cellEventsOf (sn : String) (cells : List Cell) : List (String × String) :=
  cells.filterMap (fun c =>
    if isFormulaCell c && decide (cellValueStr c.value ∈ ERROR_VALUES) then
      some (cellValueStr c.value, sn ++ "!" ++ c.coordinate)
    else Option.none)

/-- Whether a cell is consistent with what `load_workbook(filepath,
data_only=False)` (line 490) produces for a cell carrying a text formula:
a formula-typed cell holds its formula TEXT, a string starting with `=`
(openpyxl reconstructs it as `'=' + <f>`); the cached last-computed
display value is not exposed in this load mode. -/
def formulaTextOk (c : Cell) : Bool :=
  !(isFormulaCell c) ||
    (match c.value with
     | .str f => pyStartsWithEq f
     | _ => false)

/-- Workbooks as a `data_only=False` load presents them when all formulas
are textual: every formula cell holds its `=`-prefixed formula text. -/
def loadedWithTextFormulas (wb : Workbook) : Bool :=
  wb.all (fun sh => sh.rows.all (fun r => r.all formulaTextOk))

/-- The condition under which the repair loop rewrites a cell: formula data
type, string value, and no `IFERROR` substring in the uppercased text. -/
def wouldWrap (c : Cell) : Bool :=
  match c.value with
  | .str f => decide (c.data_type = "f") && !(strContains (pyUpper f.toList) IFERROR_PAT)
  | _ => false

/-- The per-cell outcome of the repair pass. -/
def repairedCellOf (c : Cell) : Cell := (repairCell c).1

/-- The repair pass as a cell-local map over the whole workbook. -/
def repairedWorkbook (wb : Workbook) : Workbook :=
  wb.map (fun sh => { sh with rows := sh.rows.map (fun r => r.map repairedCellOf) })

/-- The number of cells the repair pass rewrites. -/
def wouldWrapCount (wb : Workbook) : Nat :=
  (wb.map (fun sh => (sh.rows.map (fun r => r.countP wouldWrap)).sum)).sum

/-- The spec's §8 example workbook as `load_workbook(..., data_only=False)`
actually presents it to the scan: the formula cell `B1` holds its formula
text, not its cached `#DIV/0!` display value, which this load mode does
not expose. -/
def wbExampleLoaded : Workbook :=
  [⟨"Sheet1", [[⟨"A1", "n", .int 10⟩, ⟨"B1", "f", .str "=A1/0"⟩],
               [⟨"A2", "n", .int 20⟩]]⟩]

/-- A workbook whose single formula cell carries no error sentinel. -/
def wbNoErr : Workbook := [⟨"Sheet1", [[⟨"A1", "f", .str "=A1+B1"⟩]]⟩]

/-! ## Theorems -/

/-! ### Helper lemmas for sheet-name sanitization -/

theorem mem_pyReplaceChar {c old : Char} {l : List Char}
    (h : c ∈ pyReplaceChar old '_' l) : c = '_' ∨ c ∈ l := by
  unfold pyReplaceChar at h
  rcases List.mem_map.1 h with ⟨d, hd, he⟩
  by_cases hdo : d = old
  · subst hdo; simp at he; exact Or.inl he.symm
  · rw [if_neg hdo] at he; exact Or.inr (he ▸ hd)

theorem not_mem_pyReplaceChar_self {old : Char} {l : List Char}
    (h : ¬ old = '_') : ¬ old ∈ pyReplaceChar old '_' l := by
  intro hmem
  unfold pyReplaceChar at hmem
  rcases List.mem_map.1 hmem with ⟨d, _, he⟩
  by_cases hdo : d = old
  · rw [if_pos hdo] at he; exact h he.symm
  · rw [if_neg hdo] at he; exact hdo he

theorem foldl_replace_preserve :
    ∀ (cs : List Char) (l : List Char) {c : Char}, ¬ c ∈ l → ¬ c = '_' →
      ¬ c ∈ cs.foldl (fun acc ch => pyReplaceChar ch '_' acc) l
  | [], l, c, hl, _ => by simpa using hl
  | ch :: cs, l, c, hl, hu => by
    simp only [List.foldl_cons]
    refine foldl_replace_preserve cs _ (fun hmem => ?_) hu
    rcases mem_pyReplaceChar hmem with h1 | h2
    · exact hu h1
    · exact hl h2

theorem foldl_replace_kill :
    ∀ (cs : List Char) (l : List Char) {c : Char}, c ∈ cs → ¬ c = '_' →
      ¬ c ∈ cs.foldl (fun acc ch => pyReplaceChar ch '_' acc) l
  | [], _, c, hc, _ => by simp at hc
  | ch :: cs, l, c, hc, hu => by
    simp only [List.foldl_cons]
    rcases List.mem_cons.1 hc with h1 | h2
    · subst h1
      exact foldl_replace_preserve cs _ (not_mem_pyReplaceChar_self hu) hu
    · exact foldl_replace_kill cs _ h2 hu

theorem length_foldl_replace :
    ∀ (cs : List Char) (l : List Char),
      (cs.foldl (fun acc ch => pyReplaceChar ch '_' acc) l).length = l.length
  | [], _ => rfl
  | ch :: cs, l => by
    simp only [List.foldl_cons]
    rw [length_foldl_replace cs]
    simp [pyReplaceChar]

/-- C10: the output of `sanitize_sheet_name` always satisfies
`is_valid_sheet_name`: it is non-empty, at most 31 characters long, and
free of the forbidden characters, which are replaced by underscores before
the 31-character truncation, with the default name substituted for an
empty input. -/
theorem C10_sanitize_sheet_name_valid :
    ∀ s : String, is_valid_sheet_name (sanitize_sheet_name s) = true := by
  intro s
  unfold sanitize_sheet_name
  by_cases hempty : s.toList.isEmpty
  · rw [if_pos hempty]; decide
  · rw [if_neg hempty]
    set replaced := invalidSheetChars.foldl
      (fun acc c => pyReplaceChar c '_' acc) s.toList with hrep
    have hkill : ∀ c, c ∈ invalidSheetChars → ¬ c = '_' → ¬ c ∈ replaced := by
      intro c hc hu
      rw [hrep]
      exact foldl_replace_kill _ _ hc hu
    have hlenrep : replaced.length = s.toList.length := by
      rw [hrep]; exact length_foldl_replace _ _
    have hne0 : ¬ s.toList = [] := by simpa [List.isEmpty_iff] using hempty
    have hne : ¬ replaced.length = 0 := by
      rw [hlenrep, List.length_eq_zero]
      exact hne0
    have htne : ¬ (replaced.take 31).isEmpty = true := by
      simp only [List.isEmpty_iff, ← List.length_eq_zero, List.length_take] at *
      omega
    rw [if_neg htne]
    unfold is_valid_sheet_name
    have htolist : (String.mk (replaced.take 31)).toList = replaced.take 31 := rfl
    rw [htolist]
    simp only [Bool.and_eq_true]
    refine ⟨⟨?_, ?_⟩, ?_⟩
    · simpa using htne
    · simp [List.length_take]
    · rw [List.all_eq_true]
      intro c hc
      have hc2 := hc
      simp only [invalidSheetChars, List.mem_cons, List.not_mem_nil, or_false] at hc2
      have hcu : ¬ c = '_' := by
        rcases hc2 with h | h | h | h | h | h | h <;> subst h <;> decide
      have hnc := hkill c hc hcu
      have hnt : ¬ c ∈ replaced.take 31 := fun hmem => hnc (List.take_subset _ _ hmem)
      simpa using hnt

/-- C8: `sanitize_formula` returns the input text with `=` prepended when
absent and otherwise byte-for-byte unchanged — detected threats only add
warnings; and `sanitize("SUM(A1:A10)", false)` returns `"=SUM(A1:A10)"`
with zero warnings. -/
theorem C8_sanitize_preserves_text :
    (∀ (f : String) (a : Bool),
        (sanitize_formula f a).1 = if pyStartsWithEq f then f else "=" ++ f)
    ∧ sanitize_formula "SUM(A1:A10)" false = ("=SUM(A1:A10)", []) := by
  refine ⟨fun f a => rfl, by decide⟩

/-- C9: a scan over an unreadable or corrupt workbook (a failing
`load_workbook`, the `Except.error` load outcome) produces a report with
status `"error"` carrying the failure message, and `validate_workbook`
returns that report normally instead of propagating an exception. -/
theorem C9_scan_error_report :
    (∀ e : String, validate_workbook_python (Except.error e) =
        ⟨"error", 0, 0, ErrorSummaryV.failure e, "python_fallback"⟩)
    ∧ (∀ (e : String) (lo : Bool),
        validate_workbook true (Except.error e) lo "auto" =
          Except.ok (validate_workbook_python (Except.error e))) := by
  refine ⟨fun e => rfl, fun e lo => ?_⟩
  cases lo <;> rfl

/-- C4: with `make_backup` true, `repair_errors` records the
timestamp-suffixed sibling backup path in its result, and if the backup
copy fails it aborts by propagating the failure before any mutation — no
repaired workbook is produced (fail-closed). -/
theorem C4_backup_fail_closed :
    ∀ (load : Except String Workbook) (et : Option (List String))
      (stem ts suffix : String),
      repair_errors load et true false (mkBackupPath stem ts suffix) =
        Except.error "shutil.copy2 failed"
      ∧ (repair_errors load et true true (mkBackupPath stem ts suffix)).map
          (fun r => r.1.backup_file) =
        Except.ok (some (mkBackupPath stem ts suffix)) := by
  intro load et stem ts suffix
  refine ⟨rfl, ?_⟩
  cases load <;> rfl

/-! ### Helper lemmas for the repair pass -/

theorem repairCell_snd (c : Cell) :
    (repairCell c).2 = if wouldWrap c then 1 else 0 := by
  rcases c with ⟨coord, dt, v⟩
  cases v <;> simp only [repairCell, wouldWrap] <;> split <;> simp_all

theorem repairCell_fst_of_not (c : Cell) (h : wouldWrap c = false) :
    (repairCell c).1 = c := by
  rcases c with ⟨coord, dt, v⟩
  cases v with
  | str f =>
    simp only [wouldWrap] at h
    simp only [repairCell]
    split
    · rename_i hcond
      rw [hcond] at h
      exact absurd h (by decide)
    · rfl
  | none => rfl
  | int n => rfl

theorem repairCell_fst_str (c : Cell) (f : String) (hv : c.value = PyVal.str f) :
    (repairCell c).1 =
      if wouldWrap c then { c with value := PyVal.str (wrapFormula f) } else c := by
  rcases c with ⟨coord, dt, v⟩
  cases hv
  simp only [repairCell, wouldWrap]
  split <;> simp_all

theorem isPrefixOf_append_self (p r : List Char) : p.isPrefixOf (p ++ r) = true := by
  rw [List.isPrefixOf_iff_prefix]
  exact List.prefix_append p r

theorem strContains_append_of (a b pat : List Char)
    (h : pat.isPrefixOf b = true) : strContains (a ++ b) pat = true := by
  induction a with
  | nil =>
    cases b with
    | nil =>
      cases pat with
      | nil => rfl
      | cons x xs => simp [List.isPrefixOf] at h
    | cons x xs => simp [strContains, h]
  | cons x xs ih => simp [strContains, ih]

theorem strContains_wrap (f : String) :
    strContains (pyUpper (wrapFormula f).toList) IFERROR_PAT = true := by
  have h1 : (wrapFormula f).toList =
      "=IFERROR(".toList ++ (stripEqList f.toList ++ ", 0)".toList) := by
    show "=IFERROR(".toList ++ stripEqList f.toList ++ ", 0)".toList =
      "=IFERROR(".toList ++ (stripEqList f.toList ++ ", 0)".toList)
    rw [List.append_assoc]
  rw [h1]
  unfold pyUpper
  rw [List.map_append]
  have h2 : List.map pyUpperChar "=IFERROR(".toList =
      ['='] ++ (IFERROR_PAT ++ ['(']) := by decide
  rw [h2, List.append_assoc, List.append_assoc]
  exact strContains_append_of _ _ _ (isPrefixOf_append_self _ _)

theorem wouldWrap_repairedCellOf (c : Cell) :
    wouldWrap (repairedCellOf c) = false := by
  rcases hw : wouldWrap c with _ | _
  · rw [repairedCellOf, repairCell_fst_of_not c hw]; exact hw
  · rcases c with ⟨coord, dt, v⟩
    cases v with
    | str f =>
      rw [repairedCellOf, repairCell_fst_str _ f rfl, if_pos hw]
      simp only [wouldWrap]
      rw [strContains_wrap f]
      simp
    | none => simp [wouldWrap] at hw
    | int n => simp [wouldWrap] at hw

theorem repairCells_spec (cs : List Cell) :
    repairCells cs = (cs.map repairedCellOf, cs.countP wouldWrap) := by
  induction cs with
  | nil => rfl
  | cons c cs ih =>
    simp only [repairCells, ih, List.map_cons, List.countP_cons, Prod.mk.injEq]
    refine ⟨rfl, ?_⟩
    rw [repairCell_snd c]
    cases hw : wouldWrap c <;> simp <;> omega

theorem repairRows_spec (rs : List (List Cell)) :
    repairRows rs = (rs.map (fun r => r.map repairedCellOf),
      (rs.map (fun r => r.countP wouldWrap)).sum) := by
  induction rs with
  | nil => rfl
  | cons r rs ih => simp [repairRows, ih, repairCells_spec]

theorem repairSheets_spec (ss : List Sheet) :
    repairSheets ss =
      (ss.map (fun sh => { sh with rows := sh.rows.map (fun r => r.map repairedCellOf) }),
       (ss.map (fun sh => (sh.rows.map (fun r => r.countP wouldWrap)).sum)).sum) := by
  induction ss with
  | nil => rfl
  | cons sh ss ih => simp [repairSheets, ih, repairRows_spec]

theorem repair_core_spec (wb : Workbook) :
    repair_errors_core wb Option.none =
      (repairedWorkbook wb,
       { repairs_attempted := wouldWrapCount wb,
         repairs_successful := wouldWrapCount wb,
         backup_file := none,
         details := [("#DIV/0!", ⟨wouldWrapCount wb, wouldWrapCount wb, "IFERROR wrapper"⟩)],
         error := none }) := by
  simp [repair_errors_core, repairSheets_spec, repairedWorkbook, wouldWrapCount]

theorem countP_flatten_eq {α : Type} (p : α → Bool) :
    ∀ ls : List (List α), ls.flatten.countP p = (ls.map (fun l => l.countP p)).sum
  | [] => rfl
  | l :: ls => by
    simp [List.flatten_cons, List.countP_append, countP_flatten_eq p ls]

theorem wouldWrapCount_eq_wbCells (wb : Workbook) :
    wouldWrapCount wb = (wbCells wb).countP (fun p => wouldWrap p.2) := by
  unfold wouldWrapCount wbCells
  rw [countP_flatten_eq]
  rw [List.map_map]
  congr 1
  apply List.map_congr_left
  intro sh _
  simp only [Function.comp, sheetCellsWithName, List.countP_map]
  rw [countP_flatten_eq]
  rfl

/-- C2 (amended): with unspecified `error_types`, repair rewrites exactly
those formula cells whose stored value is a string not containing
`IFERROR` (case-insensitive), wrapping the formula body in
`=IFERROR(body, 0)` regardless of the cell's current error value; cells
failing that test — including formula cells whose cached value shows no
error and cells of other error types — are the ones left untouched, and
both repair counters equal the number of rewritten cells. -/
theorem C2_repair_rewrites_unwrapped_formulas :
    (∀ wb : Workbook,
      (repair_errors_core wb Option.none).1 = repairedWorkbook wb
      ∧ (repair_errors_core wb Option.none).2.repairs_attempted =
          (wbCells wb).countP (fun p => wouldWrap p.2)
      ∧ (repair_errors_core wb Option.none).2.repairs_successful =
          (wbCells wb).countP (fun p => wouldWrap p.2))
    ∧ (∀ (c : Cell) (f : String), c.value = PyVal.str f →
        repairedCellOf c =
          if wouldWrap c then { c with value := PyVal.str (wrapFormula f) } else c)
    ∧ (∀ c : Cell, wouldWrap c = false → repairedCellOf c = c) := by
  refine ⟨fun wb => ?_, fun c f hv => repairCell_fst_str c f hv,
    fun c h => repairCell_fst_of_not c h⟩
  rw [repair_core_spec wb, ← wouldWrapCount_eq_wbCells]
  exact ⟨rfl, rfl, rfl⟩

/-- Witness for C2: the amended per-cell characterization evaluated at a
concrete healthy formula cell. -/
theorem C2_repair_witness :
    repairedCellOf ⟨"A1", "f", PyVal.str "=A1+B1"⟩ =
      (if wouldWrap ⟨"A1", "f", PyVal.str "=A1+B1"⟩ then
        { Cell.mk "A1" "f" (PyVal.str "=A1+B1") with
            value := PyVal.str (wrapFormula "=A1+B1") }
      else ⟨"A1", "f", PyVal.str "=A1+B1"⟩) :=
  C2_repair_rewrites_unwrapped_formulas.2.1 ⟨"A1", "f", PyVal.str "=A1+B1"⟩ "=A1+B1" rfl

/-- Counterexample to C2 as stated: `wbNoErr` has a single formula cell
whose cached value is no error sentinel at all (the scan reports zero
errors), yet repair with unspecified `error_types` rewrites it —
`repairs_attempted = 1` and the workbook changes — contradicting the claim
that only division-by-zero cells are rewritten. -/
theorem C2_counterexample_healthy_cell_rewritten :
    (validate_workbook_python (Except.ok wbNoErr)).total_errors = 0
    ∧ (repair_errors_core wbNoErr Option.none).2.repairs_attempted = 1
    ∧ ¬ (repair_errors_core wbNoErr Option.none).1 = wbNoErr := by
  refine ⟨by decide, by decide, by decide⟩

/-- C3: repair is idempotent — a second repair run on the result of a
first finds the `IFERROR` wrapper (substring check) in every rewritten
formula and leaves every other cell in its already-skipped state, so it
reports `repairs_attempted = 0` and `repairs_successful = 0`. -/
theorem C3_repair_idempotent :
    ∀ wb : Workbook,
      (repair_errors_core (repair_errors_core wb Option.none).1
        Option.none).2.repairs_attempted = 0
      ∧ (repair_errors_core (repair_errors_core wb Option.none).1
        Option.none).2.repairs_successful = 0 := by
  intro wb
  have hz : wouldWrapCount (repairedWorkbook wb) = 0 := by
    unfold wouldWrapCount repairedWorkbook
    apply List.sum_eq_zero
    intro x hx
    rcases List.mem_map.1 hx with ⟨sh2, hsh2, rfl⟩
    rcases List.mem_map.1 hsh2 with ⟨sh, hsh, rfl⟩
    dsimp only
    apply List.sum_eq_zero
    intro y hy
    rcases List.mem_map.1 hy with ⟨r2, hr2, rfl⟩
    rcases List.mem_map.1 hr2 with ⟨r, hr, rfl⟩
    rw [List.countP_map]
    rw [List.countP_eq_zero]
    intro c _
    simp [Function.comp, wouldWrap_repairedCellOf]
  rw [repair_core_spec wb]
  rw [repair_core_spec (repairedWorkbook wb), hz]
  exact ⟨rfl, rfl⟩

/-! ### Helper lemmas for the reference validator -/

theorem checkRefs_spec :
    ∀ (rs known : List String),
      ((checkRefs rs known).1 = true ↔ ∀ r ∈ rs, r ∈ known)
      ∧ ((checkRefs rs known).1 = false →
          ∃ r ∈ rs, ¬ r ∈ known ∧ (checkRefs rs known).2 = some (refErrMsg r))
  | [], known => by
    constructor
    · simp [checkRefs]
    · intro h
      simp [checkRefs] at h
  | r :: rs, known => by
    by_cases hr : r ∈ known
    · have ih := checkRefs_spec rs known
      constructor
      · rw [checkRefs, if_pos hr]
        rw [ih.1]
        simp [hr]
      · rw [checkRefs, if_pos hr]
        intro hfalse
        rcases ih.2 hfalse with ⟨r2, hmem, hnk, hres⟩
        exact ⟨r2, List.mem_cons_of_mem _ hmem, hnk, hres⟩
    · constructor
      · rw [checkRefs, if_neg hr]
        constructor
        · intro h; simp at h
        · intro hall
          exact absurd (hall r (List.mem_cons_self _ _)) hr
      · intro _
        rw [checkRefs, if_neg hr]
        exact ⟨r, List.mem_cons_self _ _, hr, rfl⟩

/-- Counterexample to C7 as stated: the empty formula string yields an
empty extracted-name list — every extracted name is vacuously in the
known-sheet set — yet `validate_formula_references` fails with the
non-empty-string guard, so success is not equivalent to all extracted
names being known on every formula string. -/
theorem C7_counterexample_empty_formula :
    validate_formula_references "" ["Sheet1"] =
      (false, some "Formula must be a non-empty string")
    ∧ extractSheetRefs "" = [] := by
  refine ⟨rfl, rfl⟩

/-- C7 (amended): for every NON-EMPTY formula string and sheet-name set,
`validate_formula_references` extracts the quoted names followed by `!`
and the bare identifier tokens followed by `!`, deduplicates them, and
succeeds exactly when every extracted name is known; on failure it reports
a missing extracted name.  In particular
`validate_references("=Sheet1!A1+Data!B2", {"Sheet1"})` fails naming
`Data`, and `validate_references("='My Sheet'!A1", {"My Sheet"})`
succeeds. -/
theorem C7_validate_references_spec :
    (∀ (f : String) (known : List String), ¬ f.toList.isEmpty = true →
      ((validate_formula_references f known).1 = true ↔
        ∀ r ∈ extractSheetRefs f, r ∈ known)
      ∧ ((validate_formula_references f known).1 = false →
          ∃ r ∈ extractSheetRefs f, ¬ r ∈ known ∧
            (validate_formula_references f known).2 = some (refErrMsg r)))
    ∧ validate_formula_references "=Sheet1!A1+Data!B2" ["Sheet1"] =
        (false, some (refErrMsg "Data"))
    ∧ validate_formula_references
        ("=" ++ quoteC.toString ++ "My Sheet" ++ quoteC.toString ++ "!A1")
        ["My Sheet"] = (true, none) := by
  refine ⟨fun f known hne => ?_, by decide, by decide⟩
  unfold validate_formula_references
  rw [if_neg hne]
  exact checkRefs_spec (extractSheetRefs f) known

/-- Witness for C7: the amended equivalence applied at a concrete
non-empty formula whose single extracted reference is known. -/
theorem C7_validate_references_witness :
    (validate_formula_references "=Sheet1!A1" ["Sheet1"]).1 = true :=
  ((C7_validate_references_spec.1 "=Sheet1!A1" ["Sheet1"] (by decide)).1).mpr
    (by decide)

/-! ### Helper lemmas for the address model -/

theorem isOk_error (e : String) :
    (Except.error e : Except String (Nat × Nat)).isOk = false := rfl

theorem isOk_ok (x : Nat × Nat) :
    (Except.ok x : Except String (Nat × Nat)).isOk = true := rfl

theorem is_valid_eq_pattern (s : String) :
    is_valid_cell_reference s =
      matchesCellPattern (dropTrailingNewline (pyUpper s.toList)) := by
  unfold is_valid_cell_reference
  cases h : s.toList with
  | nil => decide
  | cons c t => simp

/-- Counterexample to C6 as claimed: the claim's strict reading — parse
succeeds exactly when the uppercased text is letters-then-digits with the
bounds — misses Python's `re.match` semantics for `$`, which also matches
just before one trailing newline: the source accepts `"A1\n"` and returns
row 1, column 1, although the text itself is not of the letters-then-digits
form. -/
theorem C6_counterexample_trailing_newline :
    get_cell_coordinates "A1\n" = Except.ok (1, 1)
    ∧ matchesCellPattern (pyUpper "A1\n".toList) = false := by
  exact ⟨by decide, by decide⟩

/-- C6 (amended): `parse_cell` (`get_cell_coordinates`) succeeds exactly
when the uppercased text, after discarding at most one trailing newline
(Python `$` semantics), matches 1-3 letters followed by 1-7 digits and the
decoded row is at most 1,048,576 and the decoded column at most 16,384;
otherwise it fails with `InvalidCellReferenceError`, with no clamping —
one unit beyond either bound (`A1048577`, `XFE1`) fails while the bounds
themselves (`A1048576`, `XFD1`) succeed, and `"A1\n"` also succeeds. -/
theorem C6_parse_cell_amended_iff :
    (∀ s : String,
      (get_cell_coordinates s).isOk = true ↔
        (matchesCellPattern (dropTrailingNewline (pyUpper s.toList)) = true
         ∧ natOfDigits (digitsOf s) ≤ EXCEL_MAX_ROWS
         ∧ column_index_from_string (lettersOf s) ≤ EXCEL_MAX_COLS))
    ∧ (get_cell_coordinates "A1048576").isOk = true
    ∧ (get_cell_coordinates "A1048577").isOk = false
    ∧ (get_cell_coordinates "XFD1").isOk = true
    ∧ (get_cell_coordinates "XFE1").isOk = false
    ∧ (get_cell_coordinates "A1\n").isOk = true := by
  refine ⟨fun s => ?_, by decide, by decide, by decide, by decide, by decide⟩
  unfold get_cell_coordinates
  rw [is_valid_eq_pattern]
  by_cases hp : matchesCellPattern (dropTrailingNewline (pyUpper s.toList)) = true
  · rw [if_pos hp]
    by_cases hb : natOfDigits (digitsOf s) > EXCEL_MAX_ROWS ∨
        column_index_from_string (lettersOf s) > EXCEL_MAX_COLS
    · rw [if_pos hb, isOk_error]
      simp only [Bool.false_eq_true, false_iff]
      rintro ⟨_, h1, h2⟩
      rcases hb with hb | hb <;> omega
    · rw [if_neg hb, isOk_ok]
      rw [not_or] at hb
      simp only [true_iff]
      exact ⟨hp, by omega, by omega⟩
  · rw [if_neg hp, isOk_error]
    simp only [Bool.false_eq_true, false_iff]
    rintro ⟨h1, _, _⟩
    exact hp h1

/-! ### Helper lemmas for the scan engine -/

theorem scan_cells_fold (sn : String) :
    ∀ (cells : List Cell) (st : Nat × Summ),
      cells.foldl (scanCell sn) st =
        (st.1 + cells.countP isFormulaCell,
         (cellEventsOf sn cells).foldl evStep st.2)
  | [], st => by simp [cellEventsOf]
  | c :: cs, st => by
    rw [List.foldl_cons]
    rw [scan_cells_fold sn cs (scanCell sn st c)]
    by_cases hf : c.data_type = "f"
    · by_cases hm : cellValueStr c.value ∈ ERROR_VALUES
      · have hsc : scanCell sn st c =
            (st.1 + 1, addError st.2 (cellValueStr c.value)
              (sn ++ "!" ++ c.coordinate)) := by
          simp [scanCell, hf, hm]
        have hev : cellEventsOf sn (c :: cs) =
            (cellValueStr c.value, sn ++ "!" ++ c.coordinate) ::
              cellEventsOf sn cs := by
          simp [cellEventsOf, isFormulaCell, hf, hm]
        have hcount : (c :: cs).countP isFormulaCell =
            cs.countP isFormulaCell + 1 := by
          rw [List.countP_cons]; simp [isFormulaCell, hf]
        rw [hsc, hev, List.foldl_cons, hcount]
        congr 1
        omega
      · have hsc : scanCell sn st c = (st.1 + 1, st.2) := by
          simp [scanCell, hf, hm]
        have hev : cellEventsOf sn (c :: cs) = cellEventsOf sn cs := by
          simp [cellEventsOf, isFormulaCell, hf, hm]
        have hcount : (c :: cs).countP isFormulaCell =
            cs.countP isFormulaCell + 1 := by
          rw [List.countP_cons]; simp [isFormulaCell, hf]
        rw [hsc, hev, hcount]
        congr 1
        omega
    · have hsc : scanCell sn st c = st := by
        simp [scanCell, hf]
      have hev : cellEventsOf sn (c :: cs) = cellEventsOf sn cs := by
        simp [cellEventsOf, isFormulaCell, hf]
      have hcount : (c :: cs).countP isFormulaCell =
          cs.countP isFormulaCell := by
        rw [List.countP_cons]; simp [isFormulaCell, hf]
      rw [hsc, hev, hcount]

theorem cellEventsOf_append (sn : String) (l1 l2 : List Cell) :
    cellEventsOf sn (l1 ++ l2) = cellEventsOf sn l1 ++ cellEventsOf sn l2 := by
  simp [cellEventsOf, List.filterMap_append]

theorem scan_rows_fold (sn : String) :
    ∀ (rows : List (List Cell)) (st : Nat × Summ),
      scanRows sn st rows =
        (st.1 + rows.flatten.countP isFormulaCell,
         (cellEventsOf sn rows.flatten).foldl evStep st.2)
  | [], st => by simp [scanRows, cellEventsOf]
  | r :: rs, st => by
    have h1 : scanRows sn st (r :: rs) =
        scanRows sn (r.foldl (scanCell sn) st) rs := rfl
    rw [h1, scan_rows_fold sn rs _, scan_cells_fold sn r st]
    rw [List.flatten_cons, List.countP_append, cellEventsOf_append,
      List.foldl_append]
    congr 1
    omega

theorem wbCells_cons (sh : Sheet) (ss : List Sheet) :
    wbCells (sh :: ss) = sheetCellsWithName sh ++ wbCells ss := by
  simp [wbCells]

theorem matchEvents_cons (sh : Sheet) (ss : List Sheet) :
    matchEvents (sh :: ss) =
      cellEventsOf sh.name sh.rows.flatten ++ matchEvents ss := by
  unfold matchEvents
  rw [wbCells_cons, List.filterMap_append]
  congr 1
  unfold sheetCellsWithName cellEventsOf
  rw [List.filterMap_map]
  rfl

theorem totalFormulas_cons (sh : Sheet) (ss : List Sheet) :
    totalFormulasSpec (sh :: ss) =
      sh.rows.flatten.countP isFormulaCell + totalFormulasSpec ss := by
  unfold totalFormulasSpec
  rw [wbCells_cons, List.countP_append]
  congr 1
  unfold sheetCellsWithName
  rw [List.countP_map]
  rfl

theorem scan_wb_fold :
    ∀ (wb : Workbook) (st : Nat × Summ),
      wb.foldl (fun st sh => scanRows sh.name st sh.rows) st =
        (st.1 + totalFormulasSpec wb, (matchEvents wb).foldl evStep st.2)
  | [], st => by simp [totalFormulasSpec, wbCells, matchEvents]
  | sh :: ss, st => by
    rw [List.foldl_cons, scan_wb_fold ss _, scan_rows_fold sh.name sh.rows st]
    rw [totalFormulas_cons, matchEvents_cons, List.foldl_append]
    congr 1
    omega

theorem scanWorkbook_eq (wb : Workbook) :
    scanWorkbook wb = (totalFormulasSpec wb, (matchEvents wb).foldl evStep []) := by
  unfold scanWorkbook
  rw [scan_wb_fold wb (0, [])]
  simp



/-! ### Helper lemmas for the data_only=False load invariant -/

theorem not_sentinel_of_startsEq (f : String) (h : pyStartsWithEq f = true) :
    ¬ f ∈ ERROR_VALUES := by
  intro hmem
  simp only [ERROR_VALUES, List.mem_cons, List.not_mem_nil, or_false] at hmem
  rcases hmem with h1 | h1 | h1 | h1 | h1 | h1 | h1 <;> subst h1 <;>
    exact absurd h (by decide)

theorem cellValueStr_str_of_startsEq (f : String) (h : pyStartsWithEq f = true) :
    cellValueStr (PyVal.str f) = f := by
  unfold pyStartsWithEq at h
  unfold cellValueStr
  have ht : pyTruthy (PyVal.str f) = true := by
    simp only [pyTruthy]
    cases hl : f.toList with
    | nil => rw [hl] at h; exact absurd h (by decide)
    | cons a t => rfl
  rw [if_pos ht]
  rfl

theorem evOf_none_of_formulaTextOk (sn : String) (c : Cell)
    (h : formulaTextOk c = true) : evOf (sn, c) = Option.none := by
  have hcond : (isFormulaCell c
      && decide (cellValueStr c.value ∈ ERROR_VALUES)) = false := by
    cases hf : isFormulaCell c with
    | false => rfl
    | true =>
      rw [Bool.true_and]
      unfold formulaTextOk at h
      rw [hf, Bool.not_true, Bool.false_or] at h
      cases hv : c.value with
      | str f =>
        rw [hv] at h
        have hs : pyStartsWithEq f = true := h
        rw [cellValueStr_str_of_startsEq f hs]
        exact decide_eq_false (not_sentinel_of_startsEq f hs)
      | none =>
        rw [hv] at h
        exact absurd (show (false : Bool) = true from h) (by decide)
      | int n =>
        rw [hv] at h
        exact absurd (show (false : Bool) = true from h) (by decide)
  have hev : evOf (sn, c) =
      (if isFormulaCell c && decide (cellValueStr c.value ∈ ERROR_VALUES) then
        some (cellValueStr c.value, locOf (sn, c))
      else Option.none) := rfl
  rw [hev, hcond]
  rfl

theorem matchEvents_nil_of_loaded (wb : Workbook)
    (h : loadedWithTextFormulas wb = true) : matchEvents wb = [] := by
  unfold matchEvents
  rw [List.filterMap_eq_nil_iff]
  intro p hp
  unfold wbCells at hp
  rcases List.mem_flatten.1 hp with ⟨cl, hcl, hpcl⟩
  rcases List.mem_map.1 hcl with ⟨sh, hsh, rfl⟩
  unfold sheetCellsWithName at hpcl
  rcases List.mem_map.1 hpcl with ⟨c2, hc2, rfl⟩
  rcases List.mem_flatten.1 hc2 with ⟨r, hr, hcr⟩
  apply evOf_none_of_formulaTextOk
  unfold loadedWithTextFormulas at h
  rw [List.all_eq_true] at h
  have h1 := h sh hsh
  rw [List.all_eq_true] at h1
  have h2 := h1 r hr
  rw [List.all_eq_true] at h2
  exact h2 c2 hcr

/-- C1 (code bug): the claim describes the scan the source documents for
itself - "checks cached error values only" - but `validate_workbook_python`
loads with `data_only=False` (line 490), under which a formula cell's
`.value` is its `=`-prefixed formula text and never the cached display
value, so the sentinel comparison can never fire: on every workbook the
load can produce (all formula cells holding their `=`-prefixed text) the
scan still counts `total_formulas` yet reports zero errors, empty buckets
and status `"success"`; in particular the spec's section-8 example
workbook, as actually loaded, yields `total_errors = 0` instead of the
claimed 1. -/
theorem C1_scan_never_finds_cached_errors :
    (∀ wb : Workbook, loadedWithTextFormulas wb = true →
      (validate_workbook_python (Except.ok wb)).total_formulas = totalFormulasSpec wb
      ∧ (validate_workbook_python (Except.ok wb)).total_errors = 0
      ∧ (validate_workbook_python (Except.ok wb)).status = "success"
      ∧ (validate_workbook_python (Except.ok wb)).error_summary =
          ErrorSummaryV.buckets [])
    ∧ (validate_workbook_python (Except.ok wbExampleLoaded)).total_formulas = 1
    ∧ (validate_workbook_python (Except.ok wbExampleLoaded)).total_errors = 0
    ∧ (validate_workbook_python (Except.ok wbExampleLoaded)).status = "success" := by
  refine ⟨fun wb hload => ?_, by decide, by decide, by decide⟩
  have hred : validate_workbook_python (Except.ok wb) =
      (if (scanWorkbook wb).2.isEmpty = true then
        ⟨"success", 0, (scanWorkbook wb).1, .buckets [], "python_fallback"⟩
      else
        ⟨"errors_found", sumCounts (scanWorkbook wb).2, (scanWorkbook wb).1,
         .buckets (scanWorkbook wb).2, "python_fallback"⟩) := rfl
  have hevs : matchEvents wb = [] := matchEvents_nil_of_loaded wb hload
  have hscan := scanWorkbook_eq wb
  have hsumm : (scanWorkbook wb).2 = [] := by
    rw [hscan, hevs]
    rfl
  have h1 : (scanWorkbook wb).1 = totalFormulasSpec wb := by
    rw [hscan]
  have hempty : (scanWorkbook wb).2.isEmpty = true := by
    rw [hsumm]; rfl
  have hrep : validate_workbook_python (Except.ok wb) =
      ⟨"success", 0, (scanWorkbook wb).1, .buckets [], "python_fallback"⟩ := by
    rw [hred, if_pos hempty]
  rw [hrep]
  exact ⟨h1, rfl, rfl, rfl⟩

/-- Witness for C1: the never-any-cached-error theorem evaluated at the
section-8 example workbook as the `data_only=False` load presents it. -/
theorem C1_scan_never_finds_witness :
    (validate_workbook_python (Except.ok wbExampleLoaded)).total_formulas =
        totalFormulasSpec wbExampleLoaded
    ∧ (validate_workbook_python (Except.ok wbExampleLoaded)).total_errors = 0
    ∧ (validate_workbook_python (Except.ok wbExampleLoaded)).status = "success"
    ∧ (validate_workbook_python (Except.ok wbExampleLoaded)).error_summary =
        ErrorSummaryV.buckets [] :=
  C1_scan_never_finds_cached_errors.1 wbExampleLoaded (by decide)


/-! ### Helper lemmas for the column round-trip -/

theorem colDigits_zero : colDigits 0 = [] := by rw [colDigits]; simp

theorem colDigits_succ (n : Nat) (h : ¬ n = 0) :
    colDigits n = colDigits ((n - 1) / 26) ++ [(n - 1) % 26 + 1] := by
  rw [colDigits]
  rw [dif_neg h]

theorem colDigits_mem : ∀ (n d : Nat), d ∈ colDigits n → 1 ≤ d ∧ d ≤ 26
  | n, d, hd => by
    by_cases h0 : n = 0
    · subst h0; rw [colDigits_zero] at hd; simp at hd
    · rw [colDigits_succ n h0] at hd
      rcases List.mem_append.1 hd with h1 | h1
      · exact colDigits_mem ((n - 1) / 26) d h1
      · simp only [List.mem_singleton] at h1
        subst h1
        have hlt : (n - 1) % 26 < 26 := Nat.mod_lt _ (by decide)
        omega
termination_by n => n
decreasing_by
  exact Nat.lt_of_le_of_lt (Nat.div_le_self _ _)
    (Nat.sub_lt (Nat.pos_of_ne_zero h0) (by decide))

theorem colDigits_foldl : ∀ n : Nat,
    (colDigits n).foldl (fun a d => a * 26 + d) 0 = n
  | n => by
    by_cases h0 : n = 0
    · subst h0; rw [colDigits_zero]; rfl
    · rw [colDigits_succ n h0, List.foldl_append]
      rw [colDigits_foldl ((n - 1) / 26)]
      simp only [List.foldl_cons, List.foldl_nil]
      have hmod := Nat.div_add_mod (n - 1) 26
      omega
termination_by n => n
decreasing_by
  exact Nat.lt_of_le_of_lt (Nat.div_le_self _ _)
    (Nat.sub_lt (Nat.pos_of_ne_zero h0) (by decide))

theorem colDigits_ne_nil (n : Nat) (h : 1 ≤ n) : ¬ colDigits n = [] := by
  rw [colDigits_succ n (by omega)]
  simp

theorem colDigits_len1 (n : Nat) (h : n ≤ 26) : (colDigits n).length ≤ 1 := by
  by_cases h0 : n = 0
  · subst h0; rw [colDigits_zero]; simp
  · rw [colDigits_succ n h0]
    have hq : (n - 1) / 26 = 0 := Nat.div_eq_of_lt (by omega)
    rw [hq, colDigits_zero]
    simp

theorem colDigits_len2 (n : Nat) (h : n ≤ 702) : (colDigits n).length ≤ 2 := by
  by_cases h0 : n = 0
  · subst h0; rw [colDigits_zero]; simp
  · rw [colDigits_succ n h0, List.length_append]
    have hq : (n - 1) / 26 ≤ 26 := by
      calc (n - 1) / 26 ≤ 701 / 26 := Nat.div_le_div_right (by omega)
      _ = 26 := by norm_num
    have hl := colDigits_len1 _ hq
    simp only [List.length_singleton]
    omega

theorem colDigits_len3 (n : Nat) (h : n ≤ 18278) : (colDigits n).length ≤ 3 := by
  by_cases h0 : n = 0
  · subst h0; rw [colDigits_zero]; simp
  · rw [colDigits_succ n h0, List.length_append]
    have hq : (n - 1) / 26 ≤ 702 := by
      calc (n - 1) / 26 ≤ 18277 / 26 := Nat.div_le_div_right (by omega)
      _ = 702 := by norm_num
    have hl := colDigits_len2 _ hq
    simp only [List.length_singleton]
    omega

theorem digitChar26_props (d : Nat) (h1 : 1 ≤ d) (h2 : d ≤ 26) :
    letterVal (digitChar26 d) = d ∧ isUpperAlpha (digitChar26 d) = true ∧
      pyUpperChar (digitChar26 d) = digitChar26 d := by
  interval_cases d <;> refine ⟨by decide, by decide, by decide⟩

theorem colChars_mem (n : Nat) :
    ∀ c ∈ colChars n, isUpperAlpha c = true ∧ pyUpperChar c = c := by
  intro c hc
  rcases List.mem_map.1 hc with ⟨d, hd, rfl⟩
  have hb := colDigits_mem n d hd
  have hp := digitChar26_props d hb.1 hb.2
  exact ⟨hp.2.1, hp.2.2⟩

theorem column_index_colChars (n : Nat) :
    column_index_from_string (colChars n) = n := by
  unfold column_index_from_string colChars
  have hgen : ∀ (ds : List Nat), (∀ d ∈ ds, 1 ≤ d ∧ d ≤ 26) → ∀ acc : Nat,
      (ds.map digitChar26).foldl (fun a c => a * 26 + letterVal c) acc =
        ds.foldl (fun a d => a * 26 + d) acc := by
    intro ds
    induction ds with
    | nil => intro _ acc; rfl
    | cons d ds ih =>
      intro hb acc
      simp only [List.map_cons, List.foldl_cons]
      rw [(digitChar26_props d (hb d (by simp)).1 (hb d (by simp)).2).1]
      exact ih (fun x hx => hb x (by simp [hx])) _
  rw [hgen (colDigits n) (fun d hd => colDigits_mem n d hd) 0]
  exact colDigits_foldl n

theorem dropTrailingNewline_append_one (l : List Char) :
    dropTrailingNewline (l ++ ['1']) = l ++ ['1'] := by
  have h : (l ++ ['1']).reverse = '1' :: l.reverse := by simp
  unfold dropTrailingNewline
  rw [h]
  split
  · rename_i t heq
    injection heq with h1 h2
    exact absurd h1 (by decide)
  · rfl

theorem takeWhile_append_all {p : Char → Bool} :
    ∀ (l r : List Char), (∀ c ∈ l, p c = true) →
      (l ++ r).takeWhile p = l ++ r.takeWhile p
  | [], r, _ => rfl
  | c :: l, r, h => by
    have hc : p c = true := h c (by simp)
    simp only [List.cons_append, List.takeWhile_cons, hc, if_true]
    rw [takeWhile_append_all l r (fun x hx => h x (by simp [hx]))]

theorem dropWhile_append_all {p : Char → Bool} :
    ∀ (l r : List Char), (∀ c ∈ l, p c = true) →
      (l ++ r).dropWhile p = r.dropWhile p
  | [], r, _ => rfl
  | c :: l, r, h => by
    have hc : p c = true := h c (by simp)
    simp only [List.cons_append, List.dropWhile_cons, hc, if_true]
    exact dropWhile_append_all l r (fun x hx => h x (by simp [hx]))

/-- C5: for every column number n in [1, 16384], `get_column_letter`
succeeds and parsing the produced letters with row "1" round-trips to
column n; for every n outside [1, 16384], `get_column_letter` fails
(raising `ValueError` in the source). -/
theorem C5_column_roundtrip :
    ∀ n : Nat,
      (1 ≤ n ∧ n ≤ 16384 →
        (get_column_letter n).bind (fun s => get_cell_coordinates (s ++ "1")) =
          Except.ok (1, n))
      ∧ (¬ (1 ≤ n ∧ n ≤ 16384) →
          get_column_letter n = Except.error "Column number out of range (1-16384)") := by
  intro n
  constructor
  · rintro ⟨h1, h2⟩
    unfold get_column_letter
    rw [if_pos (⟨h1, h2⟩ : 1 ≤ n ∧ n ≤ EXCEL_MAX_COLS)]
    show get_cell_coordinates (String.mk (colChars n) ++ "1") = Except.ok (1, n)
    have htl : (String.mk (colChars n) ++ "1").toList = colChars n ++ ['1'] := rfl
    have hup0 : pyUpper (colChars n ++ ['1']) = colChars n ++ ['1'] := by
      unfold pyUpper
      rw [List.map_append]
      have hid : ∀ c ∈ colChars n, pyUpperChar c = c :=
        fun c hc => (colChars_mem n c hc).2
      have hmapeq : List.map pyUpperChar (colChars n) =
          List.map (fun c => c) (colChars n) := List.map_congr_left hid
      rw [hmapeq, List.map_id']
      have hone : List.map pyUpperChar ['1'] = ['1'] := by decide
      rw [hone]
    have hupper : ∀ c ∈ colChars n, isUpperAlpha c = true :=
      fun c hc => (colChars_mem n c hc).1
    have hletters : lettersOf (String.mk (colChars n) ++ "1") = colChars n := by
      unfold lettersOf
      rw [htl, hup0, dropTrailingNewline_append_one, takeWhile_append_all _ _ hupper]
      have ht1 : (['1'] : List Char).takeWhile isUpperAlpha = [] := by decide
      rw [ht1, List.append_nil]
    have hdigits : digitsOf (String.mk (colChars n) ++ "1") = ['1'] := by
      unfold digitsOf
      rw [htl, hup0, dropTrailingNewline_append_one, dropWhile_append_all _ _ hupper]
      decide
    have hlen3 : (colChars n).length ≤ 3 := by
      unfold colChars
      rw [List.length_map]
      exact colDigits_len3 n (by omega)
    have hlen1 : 1 ≤ (colChars n).length := by
      unfold colChars
      rw [List.length_map]
      have hnn := colDigits_ne_nil n h1
      have : ¬ (colDigits n).length = 0 :=
        fun hz => hnn (List.length_eq_zero.1 hz)
      omega
    have hpat : matchesCellPattern (colChars n ++ ['1']) = true := by
      unfold matchesCellPattern
      rw [takeWhile_append_all _ _ hupper, dropWhile_append_all _ _ hupper]
      have ht1 : (['1'] : List Char).takeWhile isUpperAlpha = [] := by decide
      have hd1 : (['1'] : List Char).dropWhile isUpperAlpha = ['1'] := by decide
      rw [ht1, hd1, List.append_nil]
      have hall : (['1'] : List Char).all isDigitChar = true := by decide
      rw [hall, Bool.and_true, decide_eq_true_eq]
      refine ⟨hlen1, hlen3, by simp, by simp⟩
    have hvalid : is_valid_cell_reference (String.mk (colChars n) ++ "1") = true := by
      unfold is_valid_cell_reference
      rw [htl, hup0, dropTrailingNewline_append_one, hpat]
      have hne : ¬ (colChars n ++ ['1']) = [] := by simp
      simp [List.isEmpty_iff, hne]
    unfold get_cell_coordinates
    rw [if_pos hvalid, hletters, hdigits, column_index_colChars]
    have hrow : natOfDigits ['1'] = 1 := rfl
    rw [hrow]
    rw [if_neg (by
      simp only [EXCEL_MAX_ROWS, EXCEL_MAX_COLS, not_or]
      constructor <;> omega)]
  · intro hn
    unfold get_column_letter
    rw [if_neg (show ¬ (1 ≤ n ∧ n ≤ EXCEL_MAX_COLS) from hn)]

/-- Witness for C5: the round-trip at column 28 (`AB`) and the failure one
unit beyond the upper bound. -/
theorem C5_column_roundtrip_witness :
    (get_column_letter 28).bind (fun s => get_cell_coordinates (s ++ "1")) =
      Except.ok (1, 28)
    ∧ get_column_letter 16385 = Except.error "Column number out of range (1-16384)" :=
  ⟨(C5_column_roundtrip 28).1 (by decide), (C5_column_roundtrip 16385).2 (by decide)⟩

end ExcelAgent
